import Mathlib

/-!
Shallow embedding of the history-bundle ingestion core of
`zipline_extensions` (`zipline_extensions/data/bundles/history.py`).

Conventions of the embedding:
* a pandas `NaN` cell is `none : Option ℚ`; a present value is `some v`;
* a column is a `List Cell`; a date / minute timestamp is a `ℕ`;
* a pandas panel / DataFrame of OHLCV data is a `Frame`: a date index
  (`major_axis`) plus five equally-indexed columns;
* Python exceptions are `Except`: a caught exception is a handled
  `.error`, an uncaught one propagates as the `Except.error` result;
* the external collaborators (the history download, the bar writers, the
  zipline minute-to-session roll-up) are oracle parameters, as the spec
  treats them as out-of-scope interfaces.
-/

/-- A cell of an OHLCV column. `none` models a pandas `NaN`. -/
abbrev Cell : Type := Option ℚ

/-- Elementwise `fillna`: keep `x` when present, otherwise use `y`. -/
def fillCell (x y : Cell) : Cell :=
  match x with
  | some v => some v
  | none => y

/-- `Series.fillna(method="ffill")` where `acc` is the last value seen
before the current suffix (`none` at the start of the column). -/
def ffillFrom (acc : Cell) : List Cell → List Cell
  | [] => []
  | x :: xs => fillCell x acc :: ffillFrom (fillCell x acc) xs

/-- `Series.fillna(method="ffill")` on a whole column. -/
def ffill (l : List Cell) : List Cell := ffillFrom none l

/-- `Series.shift()`: every value moves one row down, the first row
becomes missing, the last value drops off; the length is preserved. -/
def shift (l : List Cell) : List Cell := none :: l.dropLast

/-- Elementwise `a.fillna(b)` of two columns. -/
def fillnaWith (a b : List Cell) : List Cell := List.zipWith fillCell a b

/-- `Series.fillna(0)`. -/
def fillna0 (l : List Cell) : List Cell := l.map (fun x => fillCell x (some 0))

/-- The most recent non-missing value at or before row `i`, seeded with
`acc`: the "prior known close" of the specification. -/
def lastKnownFrom (acc : Cell) (l : List Cell) (i : ℕ) : Cell :=
  (l.take (i + 1)).foldl (fun a x => fillCell x a) acc

/-- The last non-missing value among `l[0..i]`, `none` if all missing. -/
def lastKnown (l : List Cell) (i : ℕ) : Cell := lastKnownFrom none l i

/-- One instrument's OHLCV table: a date index plus five equally-indexed
columns. Models both the per-instrument slice of the daily ingester's
panel and the minutely ingester's rolled-up daily DataFrame. -/
structure Frame where
  dates : List ℕ
  open_ : List Cell
  high : List Cell
  low : List Cell
  close : List Cell
  volume : List Cell
deriving DecidableEq

/-- `DailyHistoryIngester.fillna_panel`: missing volume becomes 0, close
is forward-filled, and missing open/high/low take the one-row-back shift
of the already-filled close column. The `swapaxes` round trip of the
source is representational (it exposes the columns) and has no
counterpart here; the date index is untouched. -/
def fillna_panel (p : Frame) : Frame :=
  let close' := ffill p.close
  { p with
    volume := fillna0 p.volume
    close := close'
    open_ := fillnaWith p.open_ (shift close')
    high := fillnaWith p.high (shift close')
    low := fillnaWith p.low (shift close') }

/-- The "simplified" policy the spec warns an implementer against:
missing open/high/low filled from the shift of the RAW close column
instead of the already-filled close column. Declared only to be compared
with `fillna_panel`. -/
def naiveRawShiftFill (p : Frame) : Frame :=
  { p with
    volume := fillna0 p.volume
    close := ffill p.close
    open_ := fillnaWith p.open_ (shift p.close)
    high := fillnaWith p.high (shift p.close)
    low := fillnaWith p.low (shift p.close) }

/-- The five-row example of the specification: grid D1..D5 (dates 1..5),
raw bars present only for D1, D3, D5, closes `[10, NaN, 9, NaN, 11]`,
volumes `[100, NaN, 200, NaN, 150]`. -/
def exampleRawFrame : Frame :=
  { dates := [1, 2, 3, 4, 5]
    open_ := [some 10, none, some 9, none, some 11]
    high := [some 11, none, some 10, none, some 12]
    low := [some 9, none, some 8, none, some 10]
    close := [some 10, none, some 9, none, some 11]
    volume := [some 100, none, some 200, none, some 150] }

/-- The expected result of gap-filling `exampleRawFrame`: D2 has
close/open/high/low 10 and volume 0, D4 has close/open/high/low 9 and
volume 0. -/
def exampleFilledFrame : Frame :=
  { dates := [1, 2, 3, 4, 5]
    open_ := [some 10, some 10, some 9, some 9, some 11]
    high := [some 11, some 10, some 10, some 9, some 12]
    low := [some 9, some 10, some 8, some 9, some 10]
    close := [some 10, some 10, some 9, some 9, some 11]
    volume := [some 100, some 0, some 200, some 0, some 150] }

/-- A frame with two consecutive trailing gaps: on its third row the
raw close one row back is still missing, so filling open/high/low from
the raw close and from the filled close disagree. -/
def leadingGapFrame : Frame :=
  { dates := [1, 2, 3]
    open_ := [some 1, none, none]
    high := [some 1, none, none]
    low := [some 1, none, none]
    close := [some 10, none, none]
    volume := [some 5, none, none] }

/-- `calendar.sessions_in_range(a, b)` (equivalently, the daily
ingester's `sessions[sessions.slice_indexer(first, last)]`): the ordered
sub-list of calendar sessions between `a` and `b` inclusive. -/
def sessionsInRange (sessions : List ℕ) (a b : ℕ) : List ℕ :=
  sessions.filter (fun s => decide (a ≤ s ∧ s ≤ b))

/-- One column of `panel.reindex(major_axis=idx)` (also
`df.reindex(index=idx)`): a target date present in the old index keeps
its values, an absent one yields an all-missing row. -/
def colReindex (oldIdx : List ℕ) (col : List Cell) (newIdx : List ℕ) : List Cell :=
  newIdx.map (fun d =>
    match oldIdx.findIdx? (fun x => x == d) with
    | some j => col.getD j none
    | none => none)

/-- `panel.reindex(major_axis=newIdx)` over a whole frame. -/
def frameReindex (p : Frame) (newIdx : List ℕ) : Frame :=
  { dates := newIdx
    open_ := colReindex p.dates p.open_ newIdx
    high := colReindex p.dates p.high newIdx
    low := colReindex p.dates p.low newIdx
    close := colReindex p.dates p.close newIdx
    volume := colReindex p.dates p.volume newIdx }

/-- `DailyHistoryIngester._reindex_panel_for_mismatched_sessions`:
compute the calendar sessions spanned by the panel's first and last
date; if their count equals the panel's date count, return the panel
unchanged; otherwise reindex onto those sessions and gap-fill. The
diagnostic message (missing/extra sessions, 20-entry truncation) is a
print side effect with no return-value counterpart here. -/
def reindex_panel_for_mismatched_sessions (sessions : List ℕ) (panel : Frame) : Frame :=
  let asset_first_day := (panel.dates.min?).getD 0
  let asset_last_day := (panel.dates.max?).getD 0
  let asset_sessions := sessionsInRange sessions asset_first_day asset_last_day
  if asset_sessions.length = panel.dates.length then panel
  else fillna_panel (frameReindex panel asset_sessions)

/-- `MinutelyHistoryIngester._reindex_and_fillna_missing_sessions`:
always reindex the rolled-up daily bars onto the calendar sessions
spanned by their first and last date, then fill exactly as
`fillna_panel` does (volume to 0, close forward-filled, open/high/low
from the shift of the already-filled close). -/
def reindex_and_fillna_missing_sessions (sessions : List ℕ) (daily_prices : Frame) : Frame :=
  let required_idx := sessionsInRange sessions
    ((daily_prices.dates.min?).getD 0) ((daily_prices.dates.max?).getD 0)
  let r := frameReindex daily_prices required_idx
  let close' := ffill r.close
  { r with
    volume := fillna0 r.volume
    close := close'
    open_ := fillnaWith r.open_ (shift close')
    high := fillnaWith r.high (shift close')
    low := fillnaWith r.low (shift close') }

/-- One raw minute bar (one row of the downloaded prices frame). -/
structure Bar where
  open_ : Cell
  high : Cell
  low : Cell
  close : Cell
  volume : Cell
deriving DecidableEq

/-- A timestamped minute-bar series (`prices`, indexed by `Date`). -/
abbrev MinuteSeries := List (ℕ × Bar)

/-- `prices.index = prices.index + pd.Timedelta(minutes=1)`: provider
timestamps mark interval-start, the storage convention interval-end, so
every timestamp moves forward one minute. -/
def shiftTimestampsForward (prices : MinuteSeries) : MinuteSeries :=
  prices.map (fun r => (r.1 + 1, r.2))

/-- `idx = prices.index.intersection(calendar.all_minutes);
prices = prices.reindex(index=idx)`: for a sorted, duplicate-free index
this keeps exactly the rows whose timestamp is a valid calendar minute
and drops the rest. -/
def dropMinutesOutsideSession (all_minutes : List ℕ) (prices : MinuteSeries) : MinuteSeries :=
  prices.filter (fun r => decide (r.1 ∈ all_minutes))

/-- The state built by `MinutelyHistoryIngester._enqueue_prices`: the
work items placed on the ingestion queue in order, and the per-conid
`min_dates` / `max_dates` dictionaries recorded at fetch time. -/
structure ProducerState where
  queue : List (ℕ × MinuteSeries)
  min_dates : List (ℕ × ℕ)
  max_dates : List (ℕ × ℕ)
deriving DecidableEq

/-- The result of one `download_history_file` call for one conid:
either a prices table or a `requests.HTTPError` carrying its message. -/
inductive FetchResult
  | ok (prices : MinuteSeries)
  | httpError (msg : List Char)
deriving DecidableEq

/-- The provider's distinguished response text for an empty range; the
producer tests `"no history matches the query parameters" in repr(e)`. -/
def noHistoryMsg : List Char := "no history matches the query parameters".data

/-- `MinutelyHistoryIngester._enqueue_prices`: iterate the securities in
catalog order; an `HTTPError` whose message contains `noHistoryMsg` is
logged and the conid skipped; any other `HTTPError` is re-raised
(`else: raise`), terminating the producer. On success the timestamps are
shifted forward one minute, the first and last (shifted) timestamps are
recorded as the conid's min/max dates, and the series is queued. -/
def enqueue_prices (fetch : ℕ → FetchResult) :
    List ℕ → ProducerState → Except (List Char) ProducerState
  | [], st => .ok st
  | conid :: rest, st =>
    match fetch conid with
    | .httpError msg =>
      if noHistoryMsg <:+: msg then enqueue_prices fetch rest st
      else .error msg
    | .ok prices =>
      let shifted := shiftTimestampsForward prices
      enqueue_prices fetch rest
        { queue := st.queue ++ [(conid, shifted)]
          min_dates := st.min_dates ++ [(conid, (shifted.map Prod.fst).headD 0)]
          max_dates := st.max_dates ++ [(conid, (shifted.map Prod.fst).getLastD 0)] }

/-- The state built by `MinutelyHistoryIngester._consume_prices`:
successful `minute_bar_writer.write_sid` calls (with the series actually
handed over), successful daily writes, and `conids_with_errors`. -/
structure ConsumerState where
  minuteWritten : List (ℕ × MinuteSeries)
  dailyWritten : List ℕ
  conids_with_errors : List ℕ
deriving DecidableEq

/-- `MinutelyHistoryIngester._consume_prices`: pull queue items in FIFO
order until the `None` sentinel; for each item drop the minutes outside
the session, then inside `try`: write minute bars, roll minutes up to a
daily frame (`minute_frame_to_session_frame`, an external zipline
function modelled by the `rollup` oracle), reindex-and-fill it, write
daily bars; `except Exception` records the conid in
`conids_with_errors` and the loop continues with the next item. -/
def consume_prices
    (mw : ℕ → MinuteSeries → Except (List Char) Unit)
    (dw : ℕ → Frame → Except (List Char) Unit)
    (rollup : MinuteSeries → Frame)
    (sessions all_minutes : List ℕ) :
    List (Option (ℕ × MinuteSeries)) → ConsumerState → ConsumerState
  | [], st => st
  | none :: _, st => st
  | some (conid, prices) :: rest, st =>
    let kept := dropMinutesOutsideSession all_minutes prices
    let st' :=
      match mw conid kept with
      | .error _ =>
        { st with conids_with_errors := st.conids_with_errors ++ [conid] }
      | .ok _ =>
        match dw conid (reindex_and_fillna_missing_sessions sessions (rollup kept)) with
        | .error _ =>
          { st with
            minuteWritten := st.minuteWritten ++ [(conid, kept)]
            conids_with_errors := st.conids_with_errors ++ [conid] }
        | .ok _ =>
          { st with
            minuteWritten := st.minuteWritten ++ [(conid, kept)]
            dailyWritten := st.dailyWritten ++ [conid] }
    consume_prices mw dw rollup sessions all_minutes rest st'

/-- Whether the `try` block of `_consume_prices` succeeds for one queue
item: the minute write and then the daily write of the reindexed,
gap-filled roll-up both return without an exception. -/
def writeSucceeds
    (mw : ℕ → MinuteSeries → Except (List Char) Unit)
    (dw : ℕ → Frame → Except (List Char) Unit)
    (rollup : MinuteSeries → Frame)
    (sessions all_minutes : List ℕ) (r : ℕ × MinuteSeries) : Bool :=
  let kept := dropMinutesOutsideSession all_minutes r.2
  match mw r.1 kept with
  | .error _ => false
  | .ok _ =>
    match dw r.1 (reindex_and_fillna_missing_sessions sessions (rollup kept)) with
    | .error _ => false
    | .ok _ => true

/-- Whether the minute write alone succeeds for one queue item (a daily
write failure still leaves the minute bars stored). -/
def minuteWriteSucceeds
    (mw : ℕ → MinuteSeries → Except (List Char) Unit)
    (all_minutes : List ℕ) (r : ℕ × MinuteSeries) : Bool :=
  match mw r.1 (dropMinutesOutsideSession all_minutes r.2) with
  | .error _ => false
  | .ok _ => true

/-- A fatal error of a minutely ingestion run: the run-level `NoData`
raised when `max_dates` is empty after the pipeline completes, or an
`HTTPError` re-raised out of the producer. -/
inductive IngestError
  | noData
  | httpError (msg : List Char)
deriving DecidableEq

/-- One row of the asset metadata written by
`_BaseHistoryIngester._write_assets`, restricted to the fields the
claims are about: the conid and the `start_date` / `end_date` /
`first_traded` taken from the recorded per-conid bounds. -/
structure AssetRecord where
  conid : ℕ
  start_date : ℕ
  end_date : ℕ
  first_traded : ℕ
deriving DecidableEq

/-- `_BaseHistoryIngester._write_assets`, the join step: the securities
list (in catalog order) is inner-joined with the `min_dates` and
`max_dates` dictionaries, so a conid is registered exactly when both
bounds were recorded, with `start_date` and `first_traded` the recorded
min date and `end_date` the recorded max date. -/
def write_assets (securities : List ℕ) (min_dates max_dates : List (ℕ × ℕ)) :
    List AssetRecord :=
  securities.filterMap (fun conid =>
    match List.lookup conid min_dates, List.lookup conid max_dates with
    | some lo, some hi => some ⟨conid, lo, hi, lo⟩
    | _, _ => none)

/-- The observable outcome of a successful minutely ingestion run. -/
structure IngestOutcome where
  minuteWritten : List (ℕ × MinuteSeries)
  dailyWritten : List ℕ
  conids_with_errors : List ℕ
  assets : List AssetRecord
deriving DecidableEq

/-- The minutely ingester end to end, as driven by
`_BaseHistoryIngester.ingest`: the producer (`_enqueue_prices`) runs and
its uncaught `HTTPError` propagates; otherwise the consumer drains the
produced queue followed by the sentinel (single producer, single
consumer, FIFO queue: the interleaving is observationally this
sequential composition); then `_write_bars` raises the run-level
`NoData` when `max_dates` is empty, and only otherwise does
`_write_assets` run. -/
def ingest_minutely
    (fetch : ℕ → FetchResult)
    (mw : ℕ → MinuteSeries → Except (List Char) Unit)
    (dw : ℕ → Frame → Except (List Char) Unit)
    (rollup : MinuteSeries → Frame)
    (sessions all_minutes : List ℕ)
    (securities : List ℕ) : Except IngestError IngestOutcome :=
  match enqueue_prices fetch securities ⟨[], [], []⟩ with
  | .error msg => .error (.httpError msg)
  | .ok pst =>
    let cst := consume_prices mw dw rollup sessions all_minutes
      (pst.queue.map some ++ [none]) ⟨[], [], []⟩
    if pst.max_dates.isEmpty then .error .noData
    else .ok
      { minuteWritten := cst.minuteWritten
        dailyWritten := cst.dailyWritten
        conids_with_errors := cst.conids_with_errors
        assets := write_assets securities pst.min_dates pst.max_dates }

/-- The `"1 day"` bar size string of the database configuration. -/
def barSizeDay : List Char := "1 day".data

/-- The `"1 min"` bar size string of the database configuration. -/
def barSizeMin : List Char := "1 min".data

/-- Which ingester class `make_ingest_func` selects. -/
inductive IngesterKind
  | daily
  | minutely
deriving DecidableEq

/-- `make_ingest_func` up to the construction of the ingester: reject a
bar size other than `"1 min"` / `"1 day"`; if both the passed universes
and the passed conids are empty, fall back to the database config's
universes and raise `BadIngestionArgument` only when those are empty
too; otherwise keep the passed selection (both may be non-empty). The
successful result is the selected ingester kind with the effective
universes and conids. -/
def make_ingest_func (bar_size : Option (List Char))
    (universes : List (List Char)) (conids : List ℕ)
    (config_universes : List (List Char)) :
    Except (List Char) (IngesterKind × List (List Char) × List ℕ) :=
  if ¬ (bar_size = some barSizeMin ∨ bar_size = some barSizeDay) then
    .error "Zipline requires 1 minute or 1 day bars".data
  else
    let kind := if bar_size = some barSizeDay then IngesterKind.daily
      else IngesterKind.minutely
    if universes.isEmpty ∧ conids.isEmpty then
      if config_universes.isEmpty then
        .error "1 or more universes is required".data
      else .ok (kind, config_universes, conids)
    else .ok (kind, universes, conids)

/-- A one-row bar used by the concrete runs below. -/
def unitBar : Bar := ⟨some 1, some 1, some 1, some 1, some 1⟩

/-- A fetch oracle for which conid 1 fails with a transport error that
is not the no-data condition, while every other conid returns data. -/
def c3fetch : ℕ → FetchResult := fun conid =>
  if conid = 1 then .httpError "connection reset by peer".data
  else .ok [(100, unitBar)]

/-- A fetch oracle that always returns one bar stamped 100. -/
def okFetch : ℕ → FetchResult := fun _ => .ok [(100, unitBar)]

/-- A fetch oracle that always reports the no-data condition. -/
def noDataFetch : ℕ → FetchResult := fun _ => .httpError noHistoryMsg

/-- A minute writer that always raises. -/
def mwFail : ℕ → MinuteSeries → Except (List Char) Unit :=
  fun _ _ => .error "storage engine rejected the series".data

/-- A daily writer that always raises. -/
def dwFail : ℕ → Frame → Except (List Char) Unit :=
  fun _ _ => .error "storage engine rejected the series".data

/-- A trivial stand-in for zipline's `minute_frame_to_session_frame`
oracle in the concrete runs (its output is irrelevant there because the
daily write is never reached or always fails). -/
def rollupTrivial : MinuteSeries → Frame := fun _ => ⟨[], [], [], [], [], []⟩

/-- A fetch oracle that always returns one bar stamped 200. -/
def c8fetch : ℕ → FetchResult := fun _ => .ok [(200, unitBar)]

/-- A three-session calendar for the alignment identity example. -/
def c5sessions : List ℕ := [1, 2, 3]

/-- A daily panel whose date index coincides exactly with the calendar
sessions spanned by its first and last date. -/
def c5panel : Frame :=
  { dates := [1, 2, 3]
    open_ := [some 1, some 2, some 3]
    high := [some 1, some 2, some 3]
    low := [some 1, some 2, some 3]
    close := [some 1, some 2, some 3]
    volume := [some 1, some 2, some 3] }

/-- A calendar for the equal-count/different-set example. -/
def c10sessions : List ℕ := [10, 20, 30]

/-- A daily panel whose date set differs from the spanned calendar
sessions (`[10, 20]`) — date 25 is extra, session 20 is missing — while
the two counts are both 2. -/
def c10panel : Frame :=
  { dates := [10, 25]
    open_ := [some 1, some 2]
    high := [some 1, some 2]
    low := [some 1, some 2]
    close := [some 1, some 2]
    volume := [some 1, some 2] }

theorem fillCell_fillCell_self (x y : Cell) : fillCell (fillCell x y) y = fillCell x y := by
  cases x <;> cases y <;> rfl

theorem ffillFrom_idem (l : List Cell) : ∀ acc, ffillFrom acc (ffillFrom acc l) = ffillFrom acc l := by
  induction l with
  | nil => intro acc; rfl
  | cons x xs ih => intro acc; simp [ffillFrom, fillCell_fillCell_self, ih]

theorem fillna0_idem (l : List Cell) : fillna0 (fillna0 l) = fillna0 l := by
  induction l with
  | nil => rfl
  | cons x xs ih =>
    show fillCell (fillCell x (some 0)) (some 0) :: fillna0 (fillna0 xs)
      = fillCell x (some 0) :: fillna0 xs
    rw [fillCell_fillCell_self, ih]

theorem fillnaWith_idem (a : List Cell) : ∀ b, fillnaWith (fillnaWith a b) b = fillnaWith a b := by
  induction a with
  | nil => intro b; rfl
  | cons x xs ih =>
    intro b
    cases b with
    | nil => rfl
    | cons y ys =>
      show fillCell (fillCell x y) y :: fillnaWith (fillnaWith xs ys) ys
        = fillCell x y :: fillnaWith xs ys
      rw [fillCell_fillCell_self, ih ys]

theorem length_ffillFrom (l : List Cell) : ∀ acc, (ffillFrom acc l).length = l.length := by
  induction l with
  | nil => intro acc; rfl
  | cons x xs ih => intro acc; simp [ffillFrom, ih]

theorem getD_fillna0 (l : List Cell) : ∀ i, i < l.length →
    (fillna0 l).getD i none = fillCell (l.getD i none) (some 0) := by
  induction l with
  | nil => intro i h; simp at h
  | cons x xs ih =>
    intro i h
    cases i with
    | zero => rfl
    | succ n => simpa [fillna0] using ih n (by simpa using h)

theorem getD_fillnaWith (a : List Cell) : ∀ (b : List Cell) (i : ℕ),
    i < a.length → i < b.length →
    (fillnaWith a b).getD i none = fillCell (a.getD i none) (b.getD i none) := by
  induction a with
  | nil => intro b i h _; simp at h
  | cons x xs ih =>
    intro b i ha hb
    cases b with
    | nil => simp at hb
    | cons y ys =>
      cases i with
      | zero => rfl
      | succ n =>
        simpa [fillnaWith, List.zipWith] using
          ih ys n (by simpa using ha) (by simpa using hb)

theorem getD_dropLast (l : List Cell) : ∀ i, i + 1 < l.length →
    l.dropLast.getD i none = l.getD i none := by
  induction l with
  | nil => intro i h; simp at h
  | cons x xs ih =>
    intro i h
    cases xs with
    | nil => simp at h
    | cons y ys =>
      cases i with
      | zero => rfl
      | succ n => simpa using ih n (by simpa using h)

theorem getD_shift (l : List Cell) (i : ℕ) (h : i < l.length) :
    (shift l).getD i none = if i = 0 then none else l.getD (i - 1) none := by
  cases i with
  | zero => rfl
  | succ n =>
    simp only [shift, List.getD_cons_succ, Nat.succ_ne_zero, if_false,
      Nat.succ_sub_one]
    exact getD_dropLast l n h

theorem getD_ffillFrom (l : List Cell) : ∀ (acc : Cell) (i : ℕ), i < l.length →
    (ffillFrom acc l).getD i none = lastKnownFrom acc l i := by
  induction l with
  | nil => intro acc i h; simp at h
  | cons x xs ih =>
    intro acc i h
    cases i with
    | zero => rfl
    | succ n =>
      simpa [ffillFrom, lastKnownFrom, List.take_succ_cons] using
        ih (fillCell x acc) n (by simpa using h)

theorem getD_shift_ffill (c : List Cell) (i : ℕ) (h : i < c.length) :
    (shift (ffill c)).getD i none = if i = 0 then none else lastKnown c (i - 1) := by
  have h' : i < (ffill c).length := by rw [ffill, length_ffillFrom]; exact h
  rw [getD_shift _ _ h']
  cases i with
  | zero => rfl
  | succ n =>
    simp only [Nat.succ_ne_zero, if_false, Nat.succ_sub_one]
    exact getD_ffillFrom c none n (Nat.lt_of_succ_lt h)

theorem length_shift_ffill (c : List Cell) (h : 0 < c.length) :
    (shift (ffill c)).length = c.length := by
  simp only [shift, List.length_cons, List.length_dropLast, ffill, length_ffillFrom]
  omega

/-- C7: the gap-fill operation is idempotent. For every OHLCV frame,
applying `fillna_panel` twice gives the same result as applying it once,
including in the presence of a leading gap with no prior close. -/
theorem C7_fill_idempotent (p : Frame) :
    fillna_panel (fillna_panel p) = fillna_panel p := by
  simp only [fillna_panel, ffill, ffillFrom_idem, fillna0_idem, fillnaWith_idem]

/-- C1: the gap-fill policy fills per instrument in this exact order:
missing volume becomes 0; missing close is forward-filled from the prior
known close (`lastKnown`, propagating across consecutive gaps); missing
open/high/low each become the one-row-back shift of the already-filled
close column — not the raw close. In particular, on the five-row grid
D1..D5 with data only at D1, D3, D5 and closes `[10, NaN, 9, NaN, 11]`,
the filled result has D2 = close/open/high/low 10, volume 0 and
D4 = close/open/high/low 9, volume 0; and on a frame with two
consecutive gaps the raw-close-shift variant would differ. -/
theorem C1_gap_fill_policy (p : Frame) (n : ℕ)
    (ho : p.open_.length = n) (hh : p.high.length = n) (hl : p.low.length = n)
    (hc : p.close.length = n) (hv : p.volume.length = n)
    (i : ℕ) (hi : i < n) :
    ((fillna_panel p).volume.getD i none = fillCell (p.volume.getD i none) (some 0) ∧
      (fillna_panel p).close.getD i none = lastKnown p.close i ∧
      (fillna_panel p).open_.getD i none =
        fillCell (p.open_.getD i none) (if i = 0 then none else lastKnown p.close (i - 1)) ∧
      (fillna_panel p).high.getD i none =
        fillCell (p.high.getD i none) (if i = 0 then none else lastKnown p.close (i - 1)) ∧
      (fillna_panel p).low.getD i none =
        fillCell (p.low.getD i none) (if i = 0 then none else lastKnown p.close (i - 1))) ∧
    fillna_panel exampleRawFrame = exampleFilledFrame ∧
    fillna_panel leadingGapFrame ≠ naiveRawShiftFill leadingGapFrame := by
  have hc0 : 0 < p.close.length := by omega
  have hsf : i < (shift (ffill p.close)).length := by
    rw [length_shift_ffill p.close hc0]; omega
  refine ⟨⟨?_, ?_, ?_, ?_, ?_⟩, by decide, by decide⟩
  · exact getD_fillna0 p.volume i (by omega)
  · exact getD_ffillFrom p.close none i (by omega)
  · rw [show (fillna_panel p).open_ = fillnaWith p.open_ (shift (ffill p.close)) from rfl,
      getD_fillnaWith p.open_ (shift (ffill p.close)) i (by omega) hsf,
      getD_shift_ffill p.close i (by omega)]
  · rw [show (fillna_panel p).high = fillnaWith p.high (shift (ffill p.close)) from rfl,
      getD_fillnaWith p.high (shift (ffill p.close)) i (by omega) hsf,
      getD_shift_ffill p.close i (by omega)]
  · rw [show (fillna_panel p).low = fillnaWith p.low (shift (ffill p.close)) from rfl,
      getD_fillnaWith p.low (shift (ffill p.close)) i (by omega) hsf,
      getD_shift_ffill p.close i (by omega)]

/-- C1 witness: the policy theorem applied to the specification's
five-row example at row D2 (index 1). -/
theorem C1_gap_fill_policy_witness :
    ((fillna_panel exampleRawFrame).volume.getD 1 none =
        fillCell (exampleRawFrame.volume.getD 1 none) (some 0) ∧
      (fillna_panel exampleRawFrame).close.getD 1 none = lastKnown exampleRawFrame.close 1 ∧
      (fillna_panel exampleRawFrame).open_.getD 1 none =
        fillCell (exampleRawFrame.open_.getD 1 none)
          (if 1 = 0 then none else lastKnown exampleRawFrame.close (1 - 1)) ∧
      (fillna_panel exampleRawFrame).high.getD 1 none =
        fillCell (exampleRawFrame.high.getD 1 none)
          (if 1 = 0 then none else lastKnown exampleRawFrame.close (1 - 1)) ∧
      (fillna_panel exampleRawFrame).low.getD 1 none =
        fillCell (exampleRawFrame.low.getD 1 none)
          (if 1 = 0 then none else lastKnown exampleRawFrame.close (1 - 1))) ∧
    fillna_panel exampleRawFrame = exampleFilledFrame ∧
    fillna_panel leadingGapFrame ≠ naiveRawShiftFill leadingGapFrame :=
  C1_gap_fill_policy exampleRawFrame 5 rfl rfl rfl rfl rfl 1 (by decide)

theorem reindex_unchanged_of_length_eq (sessions : List ℕ) (panel : Frame)
    (h : (sessionsInRange sessions ((panel.dates.min?).getD 0)
      ((panel.dates.max?).getD 0)).length = panel.dates.length) :
    reindex_panel_for_mismatched_sessions sessions panel = panel := by
  simp only [reindex_panel_for_mismatched_sessions]
  rw [if_pos h]

/-- C5: a raw daily series whose timestamp list exactly matches the
calendar-session sub-range spanned by its first and last observed
timestamp is returned unchanged by the align operation — no reindexing
and no gap-filling happen. -/
theorem C5_align_identity (sessions : List ℕ) (panel : Frame)
    (h : panel.dates = sessionsInRange sessions ((panel.dates.min?).getD 0)
      ((panel.dates.max?).getD 0)) :
    reindex_panel_for_mismatched_sessions sessions panel = panel :=
  reindex_unchanged_of_length_eq sessions panel (by rw [← h])

/-- C5 witness: the identity theorem applied to a concrete aligned
panel over the calendar `[1, 2, 3]`. -/
theorem C5_align_identity_witness :
    reindex_panel_for_mismatched_sessions c5sessions c5panel = c5panel :=
  C5_align_identity c5sessions c5panel (by decide)

/-- C10: the daily aligner decides whether to reindex solely by
comparing the session count of the spanned sub-range with the raw
timestamp count: whenever those counts are equal the panel is returned
unchanged — even, as the concrete `c10panel` shows, when its timestamp
set differs from the session set. -/
theorem C10_length_only_decision (sessions : List ℕ) (panel : Frame)
    (h : (sessionsInRange sessions ((panel.dates.min?).getD 0)
      ((panel.dates.max?).getD 0)).length = panel.dates.length) :
    reindex_panel_for_mismatched_sessions sessions panel = panel ∧
    reindex_panel_for_mismatched_sessions c10sessions c10panel = c10panel ∧
    c10panel.dates ≠ sessionsInRange c10sessions ((c10panel.dates.min?).getD 0)
      ((c10panel.dates.max?).getD 0) :=
  ⟨reindex_unchanged_of_length_eq sessions panel h,
    reindex_unchanged_of_length_eq c10sessions c10panel (by decide),
    by decide⟩

/-- C10 witness: the length-only theorem applied to the concrete
equal-count, different-set panel. -/
theorem C10_length_only_decision_witness :
    reindex_panel_for_mismatched_sessions c10sessions c10panel = c10panel ∧
    reindex_panel_for_mismatched_sessions c10sessions c10panel = c10panel ∧
    c10panel.dates ≠ sessionsInRange c10sessions ((c10panel.dates.min?).getD 0)
      ((c10panel.dates.max?).getD 0) :=
  C10_length_only_decision c10sessions c10panel (by decide)

/-- C6: before alignment every intraday bar timestamp is shifted forward
exactly one minute (interval-start to interval-end), and every bar whose
shifted timestamp is not a valid calendar minute is dropped: each row of
the series handed to the minute writer carries a valid calendar minute,
each such row is a raw bar with its timestamp advanced by one, and
conversely every raw bar whose advanced timestamp is valid survives. -/
theorem C6_minute_shift_and_filter (all_minutes : List ℕ) (raw : MinuteSeries)
    (r : ℕ × Bar)
    (hr : r ∈ dropMinutesOutsideSession all_minutes (shiftTimestampsForward raw))
    (s : ℕ × Bar) (hs : s ∈ raw) (hv : s.1 + 1 ∈ all_minutes) :
    r.1 ∈ all_minutes ∧
    (∃ t ∈ raw, r = (t.1 + 1, t.2)) ∧
    (s.1 + 1, s.2) ∈ dropMinutesOutsideSession all_minutes (shiftTimestampsForward raw) := by
  simp only [dropMinutesOutsideSession, shiftTimestampsForward] at hr ⊢
  refine ⟨?_, ?_, ?_⟩
  · have h2 := (List.mem_filter.mp hr).2
    simpa using h2
  · have h1 := (List.mem_filter.mp hr).1
    obtain ⟨t, ht, hft⟩ := List.mem_map.mp h1
    exact ⟨t, ht, hft.symm⟩
  · exact List.mem_filter.mpr ⟨List.mem_map.mpr ⟨s, hs, rfl⟩, decide_eq_true hv⟩

/-- C6 witness: the shift-and-filter theorem applied to one raw bar
stamped minute 1 and the single-minute calendar `[2]`. -/
theorem C6_minute_shift_and_filter_witness :
    ((2 : ℕ), unitBar).1 ∈ [2] ∧
    (∃ t ∈ [((1 : ℕ), unitBar)], ((2 : ℕ), unitBar) = (t.1 + 1, t.2)) ∧
    (((1 : ℕ), unitBar).1 + 1, ((1 : ℕ), unitBar).2) ∈
      dropMinutesOutsideSession [2] (shiftTimestampsForward [((1 : ℕ), unitBar)]) :=
  C6_minute_shift_and_filter [2] [((1 : ℕ), unitBar)] ((2 : ℕ), unitBar)
    (by decide) ((1 : ℕ), unitBar) (by decide) (by decide)

/-- C2: the consumer loop isolates write failures. For every queue
content (requests followed by the sentinel) and any behavior of the
minute and daily writers, the loop runs to the sentinel: every request
is handled, a request whose write block raises lands (by conid) in
`conids_with_errors` while the rest are written, in arrival order — so
no single instrument's write failure terminates the consumer or aborts
the run. -/
theorem C2_consumer_isolates_write_failures
    (mw : ℕ → MinuteSeries → Except (List Char) Unit)
    (dw : ℕ → Frame → Except (List Char) Unit)
    (rollup : MinuteSeries → Frame) (sessions all_minutes : List ℕ)
    (requests : List (ℕ × MinuteSeries)) (st : ConsumerState) :
    consume_prices mw dw rollup sessions all_minutes (requests.map some ++ [none]) st =
      { minuteWritten := st.minuteWritten ++
          (requests.filter (minuteWriteSucceeds mw all_minutes)).map
            (fun r => (r.1, dropMinutesOutsideSession all_minutes r.2))
        dailyWritten := st.dailyWritten ++
          (requests.filter (writeSucceeds mw dw rollup sessions all_minutes)).map Prod.fst
        conids_with_errors := st.conids_with_errors ++
          (requests.filter
            (fun r => ! writeSucceeds mw dw rollup sessions all_minutes r)).map Prod.fst } := by
  induction requests generalizing st with
  | nil => simp [consume_prices]
  | cons r rs ih =>
    obtain ⟨conid, prices⟩ := r
    cases h1 : mw conid (dropMinutesOutsideSession all_minutes prices) with
    | error e =>
      simp only [List.map_cons, List.cons_append, consume_prices, h1, List.append_eq]
      rw [ih]
      simp [List.filter_cons, writeSucceeds, minuteWriteSucceeds, h1, List.append_assoc]
    | ok u =>
      cases h2 : dw conid (reindex_and_fillna_missing_sessions sessions
          (rollup (dropMinutesOutsideSession all_minutes prices))) with
      | error e2 =>
        simp only [List.map_cons, List.cons_append, consume_prices, h1, h2, List.append_eq]
        rw [ih]
        simp [List.filter_cons, writeSucceeds, minuteWriteSucceeds, h1, h2, List.append_assoc]
      | ok u2 =>
        simp only [List.map_cons, List.cons_append, consume_prices, h1, h2, List.append_eq]
        rw [ih]
        simp [List.filter_cons, writeSucceeds, minuteWriteSucceeds, h1, h2, List.append_assoc]

/-- C3 counterexample: with a fetch that fails for conid 1 with a
transport error that is not the no-data condition, the producer run over
conids `[1, 2]` re-raises and aborts — it does not record the failure
and continue with conid 2 as the claim states. -/
theorem C3_counterexample :
    enqueue_prices c3fetch [1, 2] ⟨[], [], []⟩ =
      .error "connection reset by peer".data := by
  rfl

/-- C3 amended: a fetch `HTTPError` whose message contains the no-data
text is merely skipped (logged) and the producer continues with the next
instrument; any other fetch `HTTPError` is re-raised, aborting the whole
run — the instrument is not recorded as failed and no later instrument
is processed. -/
theorem C3_amended_fetch_error_policy (fetch : ℕ → FetchResult)
    (conid : ℕ) (rest : List ℕ) (st : ProducerState) (msg : List Char)
    (hf : fetch conid = .httpError msg) :
    (noHistoryMsg <:+: msg →
      enqueue_prices fetch (conid :: rest) st = enqueue_prices fetch rest st) ∧
    (¬ noHistoryMsg <:+: msg →
      enqueue_prices fetch (conid :: rest) st = .error msg) := by
  constructor <;> intro h <;> simp [enqueue_prices, hf, h]

/-- C3 amended witness: the amended policy applied to the concrete
failing fetch at conid 1. -/
theorem C3_amended_fetch_error_policy_witness :
    (noHistoryMsg <:+: "connection reset by peer".data →
      enqueue_prices c3fetch (1 :: [2]) ⟨[], [], []⟩ =
        enqueue_prices c3fetch [2] ⟨[], [], []⟩) ∧
    (¬ noHistoryMsg <:+: "connection reset by peer".data →
      enqueue_prices c3fetch (1 :: [2]) ⟨[], [], []⟩ =
        .error "connection reset by peer".data) :=
  C3_amended_fetch_error_policy c3fetch 1 [2] ⟨[], [], []⟩
    "connection reset by peer".data rfl

theorem enqueue_prices_all_no_data (fetch : ℕ → FetchResult) :
    ∀ (conids : List ℕ) (st : ProducerState),
    (∀ c ∈ conids, ∃ msg, fetch c = .httpError msg ∧ noHistoryMsg <:+: msg) →
    enqueue_prices fetch conids st = .ok st := by
  intro conids
  induction conids with
  | nil => intro st _; rfl
  | cons c cs ih =>
    intro st h
    obtain ⟨msg, hf, hm⟩ := h c (List.mem_cons_self c cs)
    have hrest := ih st (fun x hx => h x (List.mem_cons_of_mem c hx))
    simp [enqueue_prices, hf, hm, hrest]

/-- C4 amended: the run-level failure condition is an empty `max_dates`
dictionary — no instrument had any bars recorded at fetch time. In
particular, when every instrument's fetch reports the no-data condition,
`ingest` fails with the run-level `NoData` and, the failure preceding
`_write_assets`, no instrument-metadata write is performed. (A run whose
instruments returned data but whose writes all failed does not satisfy
this condition and completes; see the counterexample.) -/
theorem C4_amended_no_data_run (fetch : ℕ → FetchResult)
    (mw : ℕ → MinuteSeries → Except (List Char) Unit)
    (dw : ℕ → Frame → Except (List Char) Unit)
    (rollup : MinuteSeries → Frame) (sessions all_minutes : List ℕ)
    (securities : List ℕ)
    (h : ∀ c ∈ securities, ∃ msg, fetch c = .httpError msg ∧ noHistoryMsg <:+: msg) :
    ingest_minutely fetch mw dw rollup sessions all_minutes securities =
      .error .noData := by
  simp [ingest_minutely, enqueue_prices_all_no_data fetch securities ⟨[], [], []⟩ h]

/-- C4 amended witness: a run over one instrument whose fetch always
reports the no-data condition fails with the run-level `NoData`. -/
theorem C4_amended_no_data_run_witness :
    ingest_minutely noDataFetch mwFail dwFail rollupTrivial [] [] [1] =
      .error .noData :=
  C4_amended_no_data_run noDataFetch mwFail dwFail rollupTrivial [] [] [1]
    (fun _ _ => ⟨noHistoryMsg, rfl, List.infix_refl _⟩)

/-- C4 counterexample: a run over one instrument whose fetch succeeds
(one bar, shifted to minute 101) but whose minute write raises: zero
instruments are successfully ingested (`minuteWritten` and
`dailyWritten` are empty, the only conid is in `conids_with_errors`),
yet the run does NOT fail with the run-level `NoData` — it completes and
even performs the metadata write, registering conid 1. -/
theorem C4_counterexample :
    ingest_minutely okFetch mwFail dwFail rollupTrivial [] [101] [1] =
      .ok { minuteWritten := []
            dailyWritten := []
            conids_with_errors := [1]
            assets := [⟨1, 101, 101, 101⟩] } := by
  rfl

/-- C8 amended: the metadata write inner-joins the security list with
the recorded per-conid min/max date dictionaries: a record
`⟨c, lo, hi, lo⟩` is registered exactly when `c` is a listed security
with recorded bounds `lo`/`hi`, and every registered record's
`start_date`/`end_date`/`first_traded` come from those recorded bounds.
The bounds are recorded at fetch time, so "no recorded bounds" — not
"zero successfully ingested bars" — is what excludes an instrument; see
the counterexample. -/
theorem C8_amended_metadata_join (securities : List ℕ)
    (min_dates max_dates : List (ℕ × ℕ)) (c lo hi : ℕ) :
    ((⟨c, lo, hi, lo⟩ : AssetRecord) ∈ write_assets securities min_dates max_dates ↔
      c ∈ securities ∧ List.lookup c min_dates = some lo ∧
        List.lookup c max_dates = some hi) ∧
    ∀ a ∈ write_assets securities min_dates max_dates,
      a.conid ∈ securities ∧
      List.lookup a.conid min_dates = some a.start_date ∧
      List.lookup a.conid max_dates = some a.end_date ∧
      a.first_traded = a.start_date := by
  constructor
  · constructor
    · intro hmem
      obtain ⟨x, hx, hfx⟩ := List.mem_filterMap.mp hmem
      cases h1 : List.lookup x min_dates with
      | none => simp [h1] at hfx
      | some lo' =>
        cases h2 : List.lookup x max_dates with
        | none => simp [h1, h2] at hfx
        | some hi' =>
          simp only [h1, h2, Option.some.injEq, AssetRecord.mk.injEq] at hfx
          obtain ⟨rfl, rfl, rfl, -⟩ := hfx
          exact ⟨hx, h1, h2⟩
    · rintro ⟨hc, h1, h2⟩
      exact List.mem_filterMap.mpr ⟨c, hc, by simp [h1, h2]⟩
  · intro a hmem
    obtain ⟨x, hx, hfx⟩ := List.mem_filterMap.mp hmem
    cases h1 : List.lookup x min_dates with
    | none => simp [h1] at hfx
    | some lo' =>
      cases h2 : List.lookup x max_dates with
      | none => simp [h1, h2] at hfx
      | some hi' =>
        simp only [h1, h2, Option.some.injEq] at hfx
        subst hfx
        exact ⟨hx, h1, h2, rfl⟩

/-- C8 amended witness: the join characterization applied to one
security with recorded bounds 101 and 202. -/
theorem C8_amended_metadata_join_witness :
    ((⟨7, 101, 202, 101⟩ : AssetRecord) ∈
        write_assets [7] [(7, 101)] [(7, 202)] ↔
      7 ∈ [7] ∧ List.lookup 7 [(7, 101)] = some 101 ∧
        List.lookup 7 [(7, 202)] = some 202) ∧
    ∀ a ∈ write_assets [7] [(7, 101)] [(7, 202)],
      a.conid ∈ [7] ∧
      List.lookup a.conid [(7, 101)] = some a.start_date ∧
      List.lookup a.conid [(7, 202)] = some a.end_date ∧
      a.first_traded = a.start_date :=
  C8_amended_metadata_join [7] [(7, 101)] [(7, 202)] 7 101 202

/-- C8 counterexample: a run over security 7 whose fetch succeeds (one
bar shifted to minute 201) but whose minute write raises: conid 7 ends
the run with zero successfully ingested bars (`minuteWritten` and
`dailyWritten` are empty), yet its fetch-time bounds were recorded, so
the metadata write registers it instead of excluding it. -/
theorem C8_counterexample :
    ingest_minutely c8fetch mwFail dwFail rollupTrivial [] [201] [7] =
      .ok { minuteWritten := []
            dailyWritten := []
            conids_with_errors := [7]
            assets := [⟨7, 201, 201, 201⟩] } := by
  rfl

/-- C9 counterexample: supplying BOTH a non-empty universe list and a
non-empty conid list — so not "exactly one" non-empty selection form —
does not fail: `make_ingest_func` accepts the pair and proceeds. -/
theorem C9_counterexample :
    make_ingest_func (some barSizeDay) ["usa".data] [42] [] =
      .ok (.daily, ["usa".data], [42]) := by
  rfl

/-- C9 amended: given a valid bar size, resolution fails with the
configuration error exactly when the passed universes, the passed
conids, AND the database config's fallback universes are all empty
(the check precedes any bar fetch); at least one — not exactly one — of
the selection forms must be effectively non-empty, and when either
passed form is non-empty both are forwarded as given. -/
theorem C9_amended_selection_check (bar_size : Option (List Char))
    (universes : List (List Char)) (conids : List ℕ)
    (config_universes : List (List Char))
    (hbar : bar_size = some barSizeMin ∨ bar_size = some barSizeDay) :
    ((∃ e, make_ingest_func bar_size universes conids config_universes = .error e) ↔
      universes = [] ∧ conids = [] ∧ config_universes = []) ∧
    (universes ≠ [] ∨ conids ≠ [] →
      make_ingest_func bar_size universes conids config_universes =
        .ok (if bar_size = some barSizeDay then IngesterKind.daily
          else IngesterKind.minutely, universes, conids)) := by
  have hbar' : ¬¬(bar_size = some barSizeMin ∨ bar_size = some barSizeDay) :=
    not_not_intro hbar
  by_cases hu : universes = [] <;> by_cases hc : conids = [] <;>
    by_cases hcf : config_universes = [] <;>
    simp [make_ingest_func, hbar', hu, hc, hcf, List.isEmpty_iff]

/-- C9 amended witness: the selection check applied to an all-empty
selection with a valid minutely bar size. -/
theorem C9_amended_selection_check_witness :
    ((∃ e, make_ingest_func (some barSizeMin) [] ([] : List ℕ) [] = .error e) ↔
      ([] : List (List Char)) = [] ∧ ([] : List ℕ) = [] ∧
        ([] : List (List Char)) = []) ∧
    (([] : List (List Char)) ≠ [] ∨ ([] : List ℕ) ≠ [] →
      make_ingest_func (some barSizeMin) [] ([] : List ℕ) [] =
        .ok (if (some barSizeMin : Option (List Char)) = some barSizeDay
          then IngesterKind.daily else IngesterKind.minutely, [], [])) :=
  C9_amended_selection_check (some barSizeMin) [] [] [] (Or.inl rfl)
